import Mathlib

set_option maxRecDepth 20000
set_option maxHeartbeats 1000000
set_option linter.unusedVariables false

/-
Verification development for the Claro SIM activation engine
(`Activar Claro CNUM V3.py`).  The script's serial interaction is embedded
as pure state-passing functions: the device is an oracle mapping the action
history and a command string to an optional response (`none` models an I/O
exception), and every function below mirrors one Python function of the
source, keeping its name.  Strings are modelled as `List Char`; the regular
expressions of the source are embedded as explicit leftmost-search matchers
with the backtracking order of Python's `re` engine (ASCII character
classes, which is all the modem traffic uses).
-/

namespace AC

/-- ASCII digit test, modelling the regex class `\d` on the ASCII range. -/
def pyIsDigit (c : Char) : Bool := '0' ≤ c && c ≤ '9'

/-- ASCII whitespace test, modelling the regex class `\s` on the ASCII range. -/
def pyIsSpace (c : Char) : Bool :=
  c = ' ' || c = '\t' || c = '\n' || c = '\r' || c = '\x0b' || c = '\x0c'

/-- ASCII word-character test, modelling the regex class `\w` on the ASCII range. -/
def pyIsWord (c : Char) : Bool :=
  pyIsDigit c || ('a' ≤ c && c ≤ 'z') || ('A' ≤ c && c ≤ 'Z') || c = '_'

/-- Word-character test lifted to an optional character (none = string edge). -/
def isWordO : Option Char → Bool
  | none => false
  | some c => pyIsWord c

/-- Python's `\b`: a boundary sits between two positions exactly when one side
is a word character and the other is not (a string edge counts as non-word). -/
def atBoundary (prev next : Option Char) : Bool := isWordO prev != isWordO next

/-- ASCII lower-casing, used to model `re.IGNORECASE` on ASCII letters. -/
def lowerAscii (c : Char) : Char :=
  if 'A' ≤ c && c ≤ 'Z' then Char.ofNat (c.toNat + 32) else c

/-- Match a literal pattern case-insensitively at the head of the input,
returning the rest of the input on success. -/
def matchLitCI : List Char → List Char → Option (List Char)
  | [], s => some s
  | _ :: _, [] => none
  | p :: ps, c :: cs => if lowerAscii c = lowerAscii p then matchLitCI ps cs else none

/-- Match a literal pattern case-sensitively at the head of the input. -/
def matchLitExact : List Char → List Char → Option (List Char)
  | [], s => some s
  | _ :: _, [] => none
  | p :: ps, c :: cs => if c = p then matchLitExact ps cs else none

/-- Consume exactly `n` digits, returning them with the rest of the input
(models `\d{n}`). -/
def takeExactDigits : Nat → List Char → Option (List Char × List Char)
  | 0, s => some ([], s)
  | _ + 1, [] => none
  | n + 1, c :: rest =>
    if pyIsDigit c then
      match takeExactDigits n rest with
      | some (ds, r) => some (c :: ds, r)
      | none => none
    else none

/-- Leftmost-search driver: try the single-position matcher at every start
position from left to right, carrying the previous character for `\b`. -/
def reSearchAux (tryAt : Option Char → List Char → Option (List Char)) :
    Option Char → List Char → Option (List Char)
  | prev, [] => tryAt prev []
  | prev, c :: rest =>
    match tryAt prev (c :: rest) with
    | some g => some g
    | none => reSearchAux tryAt (some c) rest

/-- Model of `re.search`: leftmost match of a single-position matcher. -/
def reSearch (tryAt : Option Char → List Char → Option (List Char))
    (s : List Char) : Option (List Char) :=
  reSearchAux tryAt none s

/-- Substring containment, modelling Python's `needle in haystack`. -/
def containsSub (needle : List Char) : List Char → Bool
  | [] => needle.isPrefixOf []
  | c :: rest => needle.isPrefixOf (c :: rest) || containsSub needle rest

/-- Fuelled worker for `pySplitOn` (fuel bounds the scan, one unit per char). -/
def pySplitOnFuel (sep : List Char) : Nat → List Char → List Char → List (List Char)
  | 0, s, acc => [acc.reverse ++ s]
  | _ + 1, [], acc => [acc.reverse]
  | n + 1, c :: rest, acc =>
    if sep.isPrefixOf (c :: rest) then
      acc.reverse :: pySplitOnFuel sep n (List.drop sep.length (c :: rest)) []
    else
      pySplitOnFuel sep n rest (c :: acc)

/-- Model of Python's `str.split(sep)` for a non-empty separator. -/
def pySplitOn (sep s : List Char) : List (List Char) := pySplitOnFuel sep s.length s []

/-- Model of Python's `str.strip()` (ASCII whitespace at both ends). -/
def pyStrip (s : List Char) : List Char :=
  ((s.dropWhile pyIsSpace).reverse.dropWhile pyIsSpace).reverse

/-- Model of Python's `x[-8:]`: the last eight characters (all of them if
the string is shorter). -/
def last8 (l : List Char) : List Char := l.drop (l.length - 8)

/-- Model of `x.replace(" ", "")`: drop every plain space character. -/
def stripSpaces (l : List Char) : List Char := l.filter (fun c => c ≠ ' ')

-- ============================
-- String literals of the source
-- ============================

def lit569 : List Char := "569".data
def litPlus569 : List Char := "+569".data
def litTuNumeroEsSp : List Char := "Tu numero es ".data
def litTu : List Char := "tu".data
def litMero : List Char := "mero".data
def litEs : List Char := "es".data
def litURL : List Char := "https://fif.clarovtrcloud.com/aod/form?t=".data
def litCRLF : List Char := "\r\n".data
def litCMGLTag : List Char := "+CMGL:".data
def lit895603 : List Char := "895603".data
def opClaro : List Char := "Claro".data
def opDesconocido : List Char := "Desconocido".data

-- ============================
-- Text-mode patterns of `leer_sms` (list `patrones_numeros`), in source order,
-- each as a single-position matcher returning group 1.  All are applied with
-- `re.IGNORECASE`.
-- ============================

/-- Pattern `Tu numero es (\d+)`: the literal phrase then a maximal digit run. -/
def tryTuNumeroEs (_ : Option Char) (s : List Char) : Option (List Char) :=
  match matchLitCI litTuNumeroEsSp s with
  | none => none
  | some rest =>
    match rest.span pyIsDigit with
    | (ds, _) => if ds = [] then none else some ds

/-- Pattern `\b(\d{9})\b`: exactly nine digits between word boundaries. -/
def tryBare9 (prev : Option Char) (s : List Char) : Option (List Char) :=
  if atBoundary prev s.head? then
    match takeExactDigits 9 s with
    | some (ds, rest) => if isWordO rest.head? then none else some ds
    | none => none
  else none

/-- Group `(\d{4} ?\d{4})`: four digits, an optional space (greedy, with
backtracking), four digits; the captured text keeps the middle space. -/
def tryCore44 (s : List Char) : Option (List Char) :=
  match takeExactDigits 4 s with
  | none => none
  | some (a, r1) =>
    match r1 with
    | ' ' :: r2 =>
      (match takeExactDigits 4 r2 with
       | some (b, _) => some (a ++ ' ' :: b)
       | none =>
         match takeExactDigits 4 r1 with
         | some (b, _) => some (a ++ b)
         | none => none)
    | _ =>
      match takeExactDigits 4 r1 with
      | some (b, _) => some (a ++ b)
      | none => none

/-- Greedy ` ?`: try consuming one space first, then retry without it. -/
def optSpaceThen (k : List Char → Option (List Char)) (s : List Char) :
    Option (List Char) :=
  match s with
  | ' ' :: r =>
    (match k r with
     | some g => some g
     | none => k s)
  | _ => k s

/-- Pattern `\+569 ?(\d{4} ?\d{4})`. -/
def tryPlus569Sp (_ : Option Char) (s : List Char) : Option (List Char) :=
  match matchLitCI litPlus569 s with
  | some rest => optSpaceThen tryCore44 rest
  | none => none

/-- Pattern `569 ?(\d{4} ?\d{4})`. -/
def try569Sp (_ : Option Char) (s : List Char) : Option (List Char) :=
  match matchLitCI lit569 s with
  | some rest => optSpaceThen tryCore44 rest
  | none => none

/-- Shared shape of `\+569(\d{8})` and `569(\d{8})`. -/
def tryExact8After (lit : List Char) (s : List Char) : Option (List Char) :=
  match matchLitCI lit s with
  | some rest =>
    (match takeExactDigits 8 rest with
     | some (ds, _) => some ds
     | none => none)
  | none => none

/-- Pattern `\+569(\d{8})`. -/
def tryPlus569 (_ : Option Char) (s : List Char) : Option (List Char) :=
  tryExact8After litPlus569 s

/-- Pattern `569(\d{8})`. -/
def try569 (_ : Option Char) (s : List Char) : Option (List Char) :=
  tryExact8After lit569 s

/-- Core of `tu\s*n[uú]mero\s*es`: consume the phrase case-insensitively,
returning the rest of the input after `es`. -/
def matchTuNumeroPhrase (s : List Char) : Option (List Char) :=
  match matchLitCI litTu s with
  | none => none
  | some r1 =>
    match r1.dropWhile pyIsSpace with
    | [] => none
    | c :: r2 =>
      if c = 'n' ∨ c = 'N' then
        match r2 with
        | [] => none
        | u :: r3 =>
          if u = 'u' ∨ u = 'U' ∨ u = 'ú' ∨ u = 'Ú' then
            match matchLitCI litMero r3 with
            | none => none
            | some r4 => matchLitCI litEs (r4.dropWhile pyIsSpace)
          else none
      else none

/-- Pattern `\b(?:tu\s*n[uú]mero\s*es)\s*([\d\s]+)`: after the phrase, the
greedy `\s*` eats maximal whitespace; the group takes the following maximal
digit-or-space run, and if that run is empty the engine backtracks one
whitespace character into the group. -/
def tryTuNumeroLoose (prev : Option Char) (s : List Char) : Option (List Char) :=
  if atBoundary prev s.head? then
    match matchTuNumeroPhrase s with
    | none => none
    | some t =>
      match t.span pyIsSpace with
      | (w, r) =>
        match r.span (fun c => pyIsDigit c || pyIsSpace c) with
        | (d, _) =>
          if d ≠ [] then some d
          else
            match w.reverse with
            | c2 :: _ => some [c2]
            | [] => none
  else none

/-- Pattern `https://fif\.clarovtrcloud\.com/aod/form\?t=(\d+)`
(the only case-sensitive search of `leer_sms`). -/
def tryURL (_ : Option Char) (s : List Char) : Option (List Char) :=
  match matchLitExact litURL s with
  | none => none
  | some rest =>
    match rest.span pyIsDigit with
    | (ds, _) => if ds = [] then none else some ds

-- ============================
-- PDU-mode patterns of `extraer_numero_desde_contenido`, in source order.
-- ============================

/-- Tail `9(\d{8})\b` of the first PDU pattern. -/
def kern9x8 (t : List Char) : Option (List Char) :=
  match t with
  | '9' :: r =>
    (match takeExactDigits 8 r with
     | some (ds, rest) => if isWordO rest.head? then none else some ds
     | none => none)
  | _ => none

/-- First alternative of the optional prefix of the PDU pattern: `+56`. -/
def pduPrefA (s : List Char) : Option (List Char) :=
  match s with
  | '+' :: '5' :: '6' :: r => kern9x8 r
  | _ => none

/-- Second alternative of the optional prefix of the PDU pattern: `56`. -/
def pduPrefB (s : List Char) : Option (List Char) :=
  match s with
  | '5' :: '6' :: r => kern9x8 r
  | _ => none

/-- Pattern `\b(?:\+?56)?9(\d{8})\b`: the optional prefix is tried greedily
as `+56`, then `56`, then empty. -/
def tryPdu1 (prev : Option Char) (s : List Char) : Option (List Char) :=
  if atBoundary prev s.head? then
    match pduPrefA s with
    | some g => some g
    | none =>
      match pduPrefB s with
      | some g => some g
      | none => kern9x8 s
  else none

/-- Pattern `tu\s*n[uú]mero\s*es\s*(\d{9})`. -/
def tryPdu2 (_ : Option Char) (s : List Char) : Option (List Char) :=
  match matchTuNumeroPhrase s with
  | none => none
  | some t =>
    match takeExactDigits 9 (t.dropWhile pyIsSpace) with
    | some (ds, _) => some ds
    | none => none

/-- Pattern `(\d{19,20})` of `obtener_iccid`: at the leftmost position with at
least nineteen consecutive digits, capture greedily up to twenty of them. -/
def tryIccid (_ : Option Char) (s : List Char) : Option (List Char) :=
  match s.span pyIsDigit with
  | (ds, _) => if 19 ≤ ds.length then some (ds.take 20) else none

/-- Pattern `(\d+),` of `re.match` in the PDU block header: leading digits
followed by a comma. -/
def matchIdx (s : List Char) : Option (List Char) :=
  match s.span pyIsDigit with
  | (ds, rest) =>
    match rest with
    | ',' :: _ => if ds = [] then none else some ds
    | _ => none

-- ============================
-- Number normalisation and the two extractor front-ends
-- ============================

/-- Normalisation of `leer_sms`'s pattern loop:
`f"569{match.group(1).replace(' ', '')[-8:]}"`. -/
def mkNumStrip (g : List Char) : List Char := lit569 ++ last8 (stripSpaces g)

/-- Normalisation used by the URL branch of `leer_sms` and by
`extraer_numero_desde_contenido`: `f"569{group[-8:]}"` (no space stripping). -/
def mkNumLast8 (g : List Char) : List Char := lit569 ++ last8 g

/-- The ordered pattern list `patrones_numeros` of `leer_sms`. -/
def patrones_numeros : List (Option Char → List Char → Option (List Char)) :=
  [tryTuNumeroEs, tryBare9, tryPlus569Sp, try569Sp, tryPlus569, try569,
   tryTuNumeroLoose]

/-- First pattern of an ordered list whose search hits, as in the source's
`for patron in patrones_numeros: ... break`. -/
def firstSome (pats : List (Option Char → List Char → Option (List Char)))
    (s : List Char) : Option (List Char) :=
  match pats with
  | [] => none
  | p :: ps =>
    match reSearch p s with
    | some g => some g
    | none => firstSome ps s

/-- The pattern loop of `leer_sms` applied to one listing response. -/
def buscarNumeroEnRespuesta (respuesta : List Char) : Option (List Char) :=
  match firstSome patrones_numeros respuesta with
  | some g => some (mkNumStrip g)
  | none => none

/-- The separate carrier-portal URL fallback of `leer_sms`. -/
def buscarNumeroURL (respuesta : List Char) : Option (List Char) :=
  match reSearch tryURL respuesta with
  | some g => some (mkNumLast8 g)
  | none => none

/-- Function `extraer_numero_desde_contenido` of the source: the two PDU
patterns in order, normalising the first hit. -/
def extraer_numero_desde_contenido (texto : List Char) : Option (List Char) :=
  match reSearch tryPdu1 texto with
  | some g => some (mkNumLast8 g)
  | none =>
    match reSearch tryPdu2 texto with
    | some g => some (mkNumLast8 g)
    | none => none

/-- Modelled from the spec: the text-mode pattern order as §4.4 states it
(explicit phrase first, then the `+569`-prefixed forms, then bare nine-digit
forms, then the carrier-portal URL).  This definition follows the spec's
words, not the source, and exists only to compare orders. -/
def buscarNumero_ordenSpec (respuesta : List Char) : Option (List Char) :=
  match firstSome [tryTuNumeroEs, tryPlus569Sp, try569Sp, tryPlus569, try569,
                   tryBare9] respuesta with
  | some g => some (mkNumStrip g)
  | none =>
    match reSearch tryURL respuesta with
    | some g => some (mkNumLast8 g)
    | none => none

-- ============================
-- Stateful model: actions, process state, device environment
-- ============================

/-- One externally visible step of a port worker: an AT command written to the
device, or a fixed wall-clock sleep of the given number of seconds. -/
inductive Action where
  | cmd (c : List Char)
  | sleep (secs : Nat)
deriving DecidableEq, Repr

/-- Count of the actions satisfying a predicate. -/
def countA (p : Action → Bool) : List Action → Nat
  | [] => 0
  | a :: l => (if p a then 1 else 0) + countA p l

/-- Process-wide mutable state touched by a port worker: the action history of
the device interaction, the unresolved-port set `sim_sin_numero`, the persisted
(number, iccid) pairs of `guardar_resultado`, and the two carrier counters. -/
structure St where
  hist : List Action
  unresolved : List (List Char)
  guardados : List (List Char × List Char × List Char)
  total_claro : Nat
  activaciones_claro : Nat
deriving Repr

/-- Device-and-collaborator oracle for one port.  `respond hist c = none`
models an I/O exception raised during the write/read for command `c`;
`decode p = none` models `read_incoming_sms` raising on unit `p`.
`hasSession` selects the session-bound or the ephemeral transport branch. -/
structure Env where
  hasSession : Bool
  respond : List Action → List Char → Option (List Char)
  respondEphem : List Action → List Char → Option (List Char)
  decode : List Char → Option (List Char)
  iccid_activados : List (List Char)

/-- Model of Python's `set.add` on the unresolved set. -/
def insertPort (p : List Char) (l : List (List Char)) : List (List Char) :=
  if p ∈ l then l else l ++ [p]

/-- Function `enviar_comando` of the source: if a session is open for the port,
write/sleep/read on it; otherwise open the device ephemerally under the port
lock and do the same.  Either branch catches every I/O exception and returns
the empty string; the response is stripped on success. -/
def enviarComando (env : Env) (st : St) (comando : List Char) (espera : Nat) :
    List Char × St :=
  let st2 : St := { st with hist := st.hist ++ [Action.cmd comando, Action.sleep espera] }
  if env.hasSession then
    match env.respond st.hist comando with
    | some r => (pyStrip r, st2)
    | none => ([], st2)
  else
    match env.respondEphem st.hist comando with
    | some r => (pyStrip r, st2)
    | none => ([], st2)

-- ============================
-- Command strings of the source
-- ============================

def cmdQCCID : List Char := "AT+QCCID".data
def cmdCUSD : List Char := "AT+CUSD=1,\"*103#\",15".data
def cmdCMGF1 : List Char := "AT+CMGF=1".data
def cmdCMGF0 : List Char := "AT+CMGF=0".data
def cmdCMGLAll : List Char := "AT+CMGL=\"ALL\"".data
def cmdCMGL4 : List Char := "AT+CMGL=4".data
def cmdCPBS : List Char := "AT+CPBS=\"SM\"".data

/-- Text-mode store-selection command `AT+CPMS="<m>"`. -/
def cpmsCmd (m : List Char) : List Char :=
  "AT+CPMS=\"".data ++ m ++ "\"".data

/-- PDU-mode store-selection command `AT+CPMS="<m>","<m>","<m>"`. -/
def cpmsTripleCmd (m : List Char) : List Char :=
  "AT+CPMS=\"".data ++ m ++ "\",\"".data ++ m ++ "\",\"".data ++ m ++ "\"".data

/-- Phonebook write command of `guardar_numero_en_sim`/`guardar_resultado`. -/
def cpbwCmd (numero : List Char) : List Char :=
  "AT+CPBW=1,\"".data ++ numero ++ "\",129,\"myphone\"".data

/-- Delete command `AT+CMGD=<indice>` of `borrar_mensaje`. -/
def cmgdCmd (indice : List Char) : List Char := "AT+CMGD=".data ++ indice

/-- The memory-zone list (`memorias` in `leer_sms`, `COMANDOS_MEMORIAS` in the
PDU reader): SIM, device and combined stores. -/
def COMANDOS_MEMORIAS : List (List Char) := ["SM".data, "ME".data, "MT".data]

-- ============================
-- Observable predicates on actions
-- ============================

def delHead : List Char := "AT+CMGD=".data
def cpmsHead : List Char := "AT+CPMS=".data

/-- Does the action write a delete command (`AT+CMGD=...`)? -/
def isDel (a : Action) : Bool :=
  match a with
  | Action.cmd c => decide (c.take 8 = delHead)
  | _ => false

/-- Does the action write a store-selection command (`AT+CPMS=...`)? -/
def isCpms (a : Action) : Bool :=
  match a with
  | Action.cmd c => decide (c.take 8 = cpmsHead)
  | _ => false

/-- Does the action write the Claro activation USSD command? -/
def isCusd (a : Action) : Bool :=
  match a with
  | Action.cmd c => decide (c = cmdCUSD)
  | _ => false

/-- Does the action write the chip-identity query? -/
def isQccid (a : Action) : Bool :=
  match a with
  | Action.cmd c => decide (c = cmdQCCID)
  | _ => false

-- ============================
-- Source functions over the stateful model
-- ============================

/-- Worker of `obtener_iccid`: the remaining attempt budget drives the
recursion; each failed attempt sleeps five seconds before retrying. -/
def obtener_iccid_go (env : Env) : Nat → St → Option (List Char) × St
  | 0, st => (none, st)
  | n + 1, st =>
    let r := enviarComando env st cmdQCCID 1
    match reSearch tryIccid r.1 with
    | some ds => (some ds, r.2)
    | none =>
      obtener_iccid_go env n { r.2 with hist := r.2.hist ++ [Action.sleep 5] }

/-- Function `obtener_iccid`: up to five `AT+QCCID` attempts. -/
def obtener_iccid (env : Env) (st : St) : Option (List Char) × St :=
  obtener_iccid_go env 5 st

/-- Function `obtener_operador`: ICCID prefix `895603` means Claro. -/
def obtener_operador (iccid : List Char) : List Char :=
  if lit895603.isPrefixOf iccid then opClaro else opDesconocido

/-- Function `activar_chip`: skip identities already activated in a prior run;
for Claro, send the `*103#` USSD request.  (The unconditional append of the
port to the `fallos_sin_numero` log file is plain file I/O, not modelled.) -/
def activar_chip (env : Env) (st : St) (puerto iccid : List Char) : St :=
  let operador := obtener_operador iccid
  if iccid ∈ env.iccid_activados then st
  else if operador = opClaro then (enviarComando env st cmdCUSD 2).2
  else st

/-- Zone loop of `leer_sms`: select each store, list all messages, and for
Claro chips run the pattern loop and then the URL fallback on the listing;
stop at the first hit. -/
def leer_sms_go (env : Env) (operador : List Char) :
    List (List Char) → St → Option (List Char) × St
  | [], st => (none, st)
  | m :: ms, st =>
    let r1 := enviarComando env st (cpmsCmd m) 1
    let r2 := enviarComando env r1.2 cmdCMGLAll 2
    if operador = opClaro then
      match buscarNumeroEnRespuesta r2.1 with
      | some n => (some n, r2.2)
      | none =>
        match buscarNumeroURL r2.1 with
        | some n => (some n, r2.2)
        | none => leer_sms_go env operador ms r2.2
    else leer_sms_go env operador ms r2.2

/-- Function `leer_sms` (text-mode extractor): switch to text mode, then scan
the zones.  (On success the source rewrites the `fallos_sin_numero` log file;
on failure it logs that messages are kept — file I/O, not device commands.) -/
def leer_sms (env : Env) (st : St) (puerto iccid : List Char) :
    Option (List Char) × St :=
  let operador := obtener_operador iccid
  let r := enviarComando env st cmdCMGF1 1
  leer_sms_go env operador COMANDOS_MEMORIAS r.2

/-- Counters `{'leidos', 'procesados', 'ignorados'}` of the PDU reader. -/
structure Stats where
  leidos : Nat
  procesados : Nat
  ignorados : Nat
deriving Repr, DecidableEq

/-- Function `guardar_numero_en_sim`: write the number to position 1 of the
SIM phonebook.  The source returns `False` only if `enviar_comando` raised,
which it never does (it catches internally), so the model returns `true`. -/
def guardar_numero_en_sim (env : Env) (st : St) (puerto numero : List Char) :
    Bool × St :=
  let r1 := enviarComando env st cmdCPBS 1
  let r2 := enviarComando env r1.2 (cpbwCmd numero) 1
  (true, r2.2)

/-- Function `borrar_mensaje`: best-effort delete of one stored message
(the source catches and only logs a failure). -/
def borrar_mensaje (env : Env) (st : St) (indice : List Char) : St :=
  (enviarComando env st (cmgdCmd indice) 1).2

/-- Per-listing block loop of `leer_sms_modo_pdu`: each block is one
`+CMGL:`-prefixed entry; malformed blocks and decode failures are skipped,
and on the first decoded content yielding a number the number is saved to the
SIM, the message deleted, and the scan ends immediately. -/
def pduBloques (env : Env) (puerto : List Char) :
    List (List Char) → St → Stats → Option (List Char) × St × Stats
  | [], st, stats => (none, st, stats)
  | bloque :: bs, st, stats =>
    let stats1 : Stats := { stats with leidos := stats.leidos + 1 }
    match pySplitOn litCRLF (pyStrip bloque) with
    | l0 :: l1 :: _ =>
      let encabezado := pyStrip l0
      let pdu := pyStrip l1
      (match matchIdx encabezado with
       | some indice =>
         (match env.decode pdu with
          | some contenido =>
            (match extraer_numero_desde_contenido contenido with
             | some numero =>
               let stats2 : Stats := { stats1 with procesados := stats1.procesados + 1 }
               let r := guardar_numero_en_sim env st puerto numero
               let st2 := if r.1 then borrar_mensaje env r.2 indice else r.2
               (some numero, st2, stats2)
             | none =>
               pduBloques env puerto bs st { stats1 with ignorados := stats1.ignorados + 1 })
          | none => pduBloques env puerto bs st stats1)
       | none => pduBloques env puerto bs st stats1)
    | _ => pduBloques env puerto bs st stats1

/-- Zone loop of `leer_sms_modo_pdu`: select the zone in triple form, list all
messages in PDU mode, skip zones whose listing has no `+CMGL:` marker, and
return on the first zone producing a number. -/
def leer_sms_modo_pdu_go (env : Env) (puerto : List Char) :
    List (List Char) → St → Stats → Option (List Char) × St × Stats
  | [], st, stats => (none, st, stats)
  | m :: ms, st, stats =>
    let r1 := enviarComando env st (cpmsTripleCmd m) 1
    let r2 := enviarComando env r1.2 cmdCMGL4 1
    if containsSub litCMGLTag r2.1 then
      let bloques := (pySplitOn litCMGLTag (pyStrip r2.1)).drop 1
      match pduBloques env puerto bloques r2.2 stats with
      | (some n, st2, stats2) => (some n, st2, stats2)
      | (none, st2, stats2) => leer_sms_modo_pdu_go env puerto ms st2 stats2
    else leer_sms_modo_pdu_go env puerto ms r2.2 stats

/-- Function `leer_sms_modo_pdu` (PDU-mode extractor). -/
def leer_sms_modo_pdu (env : Env) (puerto : List Char) (st : St) (stats : Stats) :
    Option (List Char) × St × Stats :=
  let r := enviarComando env st cmdCMGF0 1
  leer_sms_modo_pdu_go env puerto COMANDOS_MEMORIAS r.2 stats

/-- Function `guardar_resultado`: append the pair to the persisted list, then
store the number in the SIM phonebook.  (The PostgreSQL upload is an external
collaborator wrapped in its own try/except; not modelled.) -/
def guardar_resultado (env : Env) (st : St) (iccid numero puerto : List Char) : St :=
  let st1 : St := { st with guardados := st.guardados ++ [(iccid, numero, puerto)] }
  let r1 := enviarComando env st1 cmdCPBS 1
  (enviarComando env r1.2 (cpbwCmd numero) 1).2

/-- One `Activating → AwaitingNumber` cycle of `procesar_puerto`'s while-loop:
issue the activation request, then the text-mode extractor, then the PDU-mode
extractor if the first yielded nothing. -/
def ciclo (env : Env) (puerto iccid : List Char) (st : St) :
    Option (List Char) × St :=
  let st1 := activar_chip env st puerto iccid
  let r := leer_sms env st1 puerto iccid
  match r.1 with
  | some nn => (some nn, r.2)
  | none =>
    let p := leer_sms_modo_pdu env puerto r.2 { leidos := 0, procesados := 0, ignorados := 0 }
    (p.1, p.2.1)

/-- The `while intentos < 3 and not numero_obtenido` loop of `procesar_puerto`,
driven by the remaining attempt budget.  A cycle with no number adds the port
to the unresolved set and sleeps ten seconds before the next cycle; a cycle
with a number persists it and increments the Claro success counter. -/
def procesar_puerto_loop (env : Env) (puerto iccid operador : List Char) :
    Nat → St → St
  | 0, st => st
  | n + 1, st =>
    match ciclo env puerto iccid st with
    | (some nn, st1) =>
      let st2 := guardar_resultado env st1 iccid nn puerto
      if operador = opClaro then
        { st2 with activaciones_claro := st2.activaciones_claro + 1 }
      else st2
    | (none, st1) =>
      procesar_puerto_loop env puerto iccid operador n
        { st1 with unresolved := insertPort puerto st1.unresolved,
                   hist := st1.hist ++ [Action.sleep 10] }

/-- Function `procesar_puerto`: inside the port's modem session, query the
chip identity (abandoning the port when it never arrives), bump the Claro
attempt counter, and run up to three activation cycles. -/
def procesar_puerto (env : Env) (puerto : List Char) (st : St) : St :=
  match obtener_iccid env st with
  | (none, st1) => st1
  | (some iccid, st1) =>
    let operador := obtener_operador iccid
    let st2 := if operador = opClaro then { st1 with total_claro := st1.total_claro + 1 } else st1
    procesar_puerto_loop env puerto iccid operador 3 st2

-- ============================
-- ModemSession scope model (class `ModemSession` and the `with` statement)
-- ============================

/-- Global state touched by `ModemSession`: the per-port lock registry
(`_serial_port_locks`), the open-session table (`_open_sessions`, holding the
handle id registered for a port), and the open/closed status of each handle. -/
structure MState where
  lockHeld : List Char → Bool
  sessions : List Char → Option Nat
  handleOpen : Nat → Bool

/-- The three steps of `ModemSession.__exit__`, in the order the source
performs them. -/
inductive ExitStep where
  | closeHandle
  | popSession
  | releaseLock
deriving DecidableEq, Repr

/-- Outcome of the body of a `with ModemSession(...)` block: it either runs to
completion (normal return or early return) or raises. -/
inductive BodyOutcome where
  | normal
  | raised
deriving DecidableEq, Repr

/-- Non-blocking lock attempt, used to state that a released lock is
immediately re-acquirable. -/
def tryAcquire (puerto : List Char) (s : MState) : Option MState :=
  if s.lockHeld puerto then none
  else some { s with lockHeld := fun p => if p = puerto then true else s.lockHeld p }

/-- `ModemSession.__enter__`: acquire the port lock, then open the device.
`openResult = none` models `serial.Serial` raising — the exception propagates
out of the `with` statement with the lock still held and nothing registered,
because Python skips `__exit__` when `__enter__` raises. -/
def msEnter (puerto : List Char) (openResult : Option Nat) (s : MState) :
    Except MState (Nat × MState) :=
  let s1 : MState := { s with lockHeld := fun p => if p = puerto then true else s.lockHeld p }
  match openResult with
  | none => Except.error s1
  | some h =>
    Except.ok (h, { s1 with
      sessions := fun p => if p = puerto then some h else s1.sessions p,
      handleOpen := fun x => if x = h then true else s1.handleOpen x })

/-- `ModemSession.__exit__`: close the handle if it is open (a close failure
is swallowed: `closeOk = false` leaves the handle flagged open), pop the
port's entry from the open-session table, release the lock — in that order. -/
def msExit (puerto : List Char) (h : Nat) (closeOk : Bool) (s : MState) :
    MState × List ExitStep :=
  let steps : List ExitStep :=
    if s.handleOpen h then [ExitStep.closeHandle] else []
  let s1 : MState :=
    if s.handleOpen h then
      (if closeOk then { s with handleOpen := fun x => if x = h then false else s.handleOpen x }
       else s)
    else s
  let s2 : MState := { s1 with sessions := fun p => if p = puerto then none else s1.sessions p }
  let s3 : MState := { s2 with lockHeld := fun p => if p = puerto then false else s2.lockHeld p }
  (s3, steps ++ [ExitStep.popSession, ExitStep.releaseLock])

/-- The `with ModemSession(puerto)` statement: enter, run the body, and run
`__exit__` on every exit path of the body.  The returned `Bool` is `true` when
the statement completes without an exception propagating. -/
def withModemSession (puerto : List Char) (openResult : Option Nat) (closeOk : Bool)
    (body : MState → BodyOutcome × MState) (s : MState) :
    Bool × MState × List ExitStep :=
  match msEnter puerto openResult s with
  | Except.error s1 => (false, s1, [])
  | Except.ok (h, s1) =>
    match body s1 with
    | (BodyOutcome.normal, s2) =>
      let r := msExit puerto h closeOk s2
      (true, r.1, r.2)
    | (BodyOutcome.raised, s2) =>
      let r := msExit puerto h closeOk s2
      (false, r.1, r.2)

-- ============================
-- Concrete runs used by counterexamples and witnesses
-- ============================

/-- Initial process state: empty history, empty outcome sets. -/
def St0 : St :=
  { hist := [], unresolved := [], guardados := [], total_claro := 0, activaciones_claro := 0 }

def stats0 : Stats := { leidos := 0, procesados := 0, ignorados := 0 }

def puertoCOM1 : List Char := "COM1".data

/-- A Claro ICCID (prefix `895603`, nineteen digits). -/
def iccidClaro : List Char := "8956031111111111111".data

/-- A non-Claro ICCID (nineteen digits, prefix not `895603`). -/
def iccidUnknown : List Char := "1234567890123456789".data

def litOK : List Char := "OK".data
def num5695 : List Char := "5695".data
def num56912345678 : List Char := "56912345678".data
def num56923456789 : List Char := "56923456789".data
def num56911112222 : List Char := "56911112222".data
def num56987654321 : List Char := "56987654321".data
def respTuNumeroEs9 : List Char := "Tu numero es 912345678".data
def respTuNumeroEs5 : List Char := "Tu numero es 5".data
def inputC4 : List Char := "123456789 y +56911112222".data
def inputC4spec : List Char := "111111111 tu numero es 912345678".data

/-- Device for the C1 run: the chip identity answers at once; the text-mode
listing is empty during the first activation cycle and carries the number
message from the second cycle on (the device's state is a function of how many
activation requests appear in the history). -/
def envC1 : Env :=
  { hasSession := true
    respond := fun hist c =>
      if c = cmdQCCID then some iccidClaro
      else if c = cmdCMGLAll then
        (if 2 ≤ countA isCusd hist then some respTuNumeroEs9 else some [])
      else some litOK
    respondEphem := fun _ _ => none
    decode := fun _ => none
    iccid_activados := [] }

/-- Device for the C2 run: the text-mode listing contains the degenerate
phrase `Tu numero es 5`. -/
def envC2 : Env :=
  { hasSession := true
    respond := fun _ c => if c = cmdCMGLAll then some respTuNumeroEs5 else some litOK
    respondEphem := fun _ _ => none
    decode := fun _ => none
    iccid_activados := [] }

/-- Device for the C3 run: the text-mode listing contains a full number
message, so extraction succeeds in text mode. -/
def envC3 : Env :=
  { hasSession := true
    respond := fun _ c => if c = cmdCMGLAll then some respTuNumeroEs9 else some litOK
    respondEphem := fun _ _ => none
    decode := fun _ => none
    iccid_activados := [] }

/-- A PDU listing with two messages (indices 1 and 2) in the first zone. -/
def listadoPduC7 : List Char :=
  "+CMGL: 1,1,,20\r\nAAA\r\n+CMGL: 2,1,,20\r\nBBB".data

def pduAAA : List Char := "AAA".data
def pduBBB : List Char := "BBB".data
def contentHola : List Char := "hola sin numero".data
def contentLineaMovil : List Char := "Tu nueva linea movil es +56987654321".data

/-- Device and decoder for the C7 run: the first PDU decodes to content with
no number, the second to the number message of the spec's test property. -/
def envC7 : Env :=
  { hasSession := true
    respond := fun _ c => if c = cmdCMGL4 then some listadoPduC7 else some litOK
    respondEphem := fun _ _ => none
    decode := fun p =>
      if p = pduAAA then some contentHola
      else if p = pduBBB then some contentLineaMovil
      else none
    iccid_activados := [] }

/-- Device for the C8 witness: every command answers `OK`, so the identity
query never sees a nineteen-digit run. -/
def envC8 : Env :=
  { hasSession := true
    respond := fun _ _ => some litOK
    respondEphem := fun _ _ => none
    decode := fun _ => none
    iccid_activados := [] }

/-- A PDU listing with one message at index 3. -/
def listadoPduC10 : List Char := "+CMGL: 3,1,,24\r\nDEADBEEF".data

def pduDEADBEEF : List Char := "DEADBEEF".data

/-- Device for the C10 run: the chip identity is non-Claro, the text-mode
listing would contain a number message (which the extractor must ignore for a
non-Claro chip), and the PDU listing decodes to the number message. -/
def envC10 : Env :=
  { hasSession := true
    respond := fun _ c =>
      if c = cmdQCCID then some iccidUnknown
      else if c = cmdCMGLAll then some respTuNumeroEs9
      else if c = cmdCMGL4 then some listadoPduC10
      else some litOK
    respondEphem := fun _ _ => none
    decode := fun p => if p = pduDEADBEEF then some contentLineaMovil else none
    iccid_activados := [] }

/-- Transport whose session write/read always raises, for the C5 witness. -/
def envErr : Env :=
  { hasSession := true
    respond := fun _ _ => none
    respondEphem := fun _ _ => none
    decode := fun _ => none
    iccid_activados := [] }

/-- Action trace of one failed identity attempt: the query, its one-second
settle wait, and the five-second retry spacing. -/
def attemptBlock : List Action := [Action.cmd cmdQCCID, Action.sleep 1, Action.sleep 5]

/-- Trace of `n` consecutive failed identity attempts. -/
def blockRep : Nat → List Action
  | 0 => []
  | n + 1 => attemptBlock ++ blockRep n

/-- Number of delete commands an extraction outcome accounts for (one on
success, zero otherwise). -/
def delOf : Option (List Char) → Nat
  | none => 0
  | some _ => 1

/-- The digit group captured from `Tu numero es 912345678`. -/
def grupo912 : List Char := "912345678".data

/-- The message index deleted in the C7 scenario. -/
def indice2 : List Char := ['2']

-- ============================
-- Generic helper lemmas
-- ============================

theorem take_append_small {α : Type} :
    ∀ (n : Nat) (a b : List α), n ≤ a.length → (a ++ b).take n = a.take n := by
  intro n a
  induction a generalizing n with
  | nil =>
    intro b h
    have : n = 0 := Nat.le_zero.mp h
    simp [this]
  | cons c cs ih =>
    intro b h
    cases n with
    | zero => simp
    | succ m =>
      simp only [List.cons_append, List.take_succ_cons]
      rw [ih m b (Nat.le_of_succ_le_succ h)]

theorem countA_append (p : Action → Bool) :
    ∀ (a b : List Action), countA p (a ++ b) = countA p a + countA p b := by
  intro a b
  induction a with
  | nil => simp [countA]
  | cons x xs ih => simp [countA, ih]; omega

theorem all_drop (p : Char → Bool) :
    ∀ (l : List Char) (n : Nat), l.all p = true → (l.drop n).all p = true := by
  intro l
  induction l with
  | nil => intro n _; simp
  | cons c cs ih =>
    intro n h
    cases n with
    | zero => exact h
    | succ m =>
      simp only [List.all_cons, Bool.and_eq_true] at h
      exact ih m h.2

theorem isPrefixOf_append_self :
    ∀ (a b : List Char), a.isPrefixOf (a ++ b) = true := by
  intro a b
  induction a with
  | nil => simp [List.isPrefixOf]
  | cons c cs ih => simp [List.isPrefixOf, ih]

-- ============================
-- State-shape lemmas for the transport and its callers
-- ============================

theorem enviar_snd (env : Env) (st : St) (c : List Char) (w : Nat) :
    (enviarComando env st c w).2 =
      { st with hist := st.hist ++ [Action.cmd c, Action.sleep w] } := by
  simp only [enviarComando]
  split <;> split <;> rfl

theorem unres_enviar (env : Env) (st : St) (c : List Char) (w : Nat) :
    ((enviarComando env st c w).2).unresolved = st.unresolved := by
  rw [enviar_snd]

theorem countA_enviar (p : Action → Bool) (hs : ∀ w, p (Action.sleep w) = false)
    (env : Env) (st : St) (c : List Char) (w : Nat) :
    countA p ((enviarComando env st c w).2).hist =
      countA p st.hist + (if p (Action.cmd c) then 1 else 0) := by
  rw [enviar_snd]
  simp [countA_append, countA, hs]

-- ============================
-- Command classification lemmas
-- ============================

theorem isDel_sleep (w : Nat) : isDel (Action.sleep w) = false := rfl

theorem isDel_cpms (m : List Char) : isDel (Action.cmd (cpmsCmd m)) = false := by
  simp only [isDel, cpmsCmd, List.append_assoc, decide_eq_false_iff_not]
  rw [take_append_small 8 _ _ (by decide)]
  decide

theorem isDel_cpmsTriple (m : List Char) : isDel (Action.cmd (cpmsTripleCmd m)) = false := by
  simp only [isDel, cpmsTripleCmd, List.append_assoc, decide_eq_false_iff_not]
  rw [take_append_small 8 _ _ (by decide)]
  decide

theorem isDel_cpbw (n : List Char) : isDel (Action.cmd (cpbwCmd n)) = false := by
  simp only [isDel, cpbwCmd, List.append_assoc, decide_eq_false_iff_not]
  rw [take_append_small 8 _ _ (by decide)]
  decide

theorem isDel_cmgd (i : List Char) : isDel (Action.cmd (cmgdCmd i)) = true := by
  simp only [isDel, cmgdCmd, decide_eq_true_eq]
  rw [take_append_small 8 _ _ (by decide)]
  decide

theorem isCusd_cpms (m : List Char) : isCusd (Action.cmd (cpmsCmd m)) = false := by
  simp only [isCusd, cpmsCmd, List.append_assoc, decide_eq_false_iff_not]
  intro h
  have := congrArg (List.take 8) h
  rw [take_append_small 8 _ _ (by decide)] at this
  revert this
  decide

theorem isCusd_cpmsTriple (m : List Char) : isCusd (Action.cmd (cpmsTripleCmd m)) = false := by
  simp only [isCusd, cpmsTripleCmd, List.append_assoc, decide_eq_false_iff_not]
  intro h
  have := congrArg (List.take 8) h
  rw [take_append_small 8 _ _ (by decide)] at this
  revert this
  decide

theorem isCusd_cpbw (n : List Char) : isCusd (Action.cmd (cpbwCmd n)) = false := by
  simp only [isCusd, cpbwCmd, List.append_assoc, decide_eq_false_iff_not]
  intro h
  have := congrArg (List.take 8) h
  rw [take_append_small 8 _ _ (by decide)] at this
  revert this
  decide

theorem isCusd_cmgd (i : List Char) : isCusd (Action.cmd (cmgdCmd i)) = false := by
  simp only [isCusd, cmgdCmd, decide_eq_false_iff_not]
  intro h
  have := congrArg (List.take 8) h
  rw [take_append_small 8 _ _ (by decide)] at this
  revert this
  decide

-- ============================
-- Preservation of the unresolved set by the extractors and their helpers
-- ============================

theorem unres_activar (env : Env) (st : St) (puerto iccid : List Char) :
    (activar_chip env st puerto iccid).unresolved = st.unresolved := by
  simp only [activar_chip]
  split
  · rfl
  · split
    · rw [unres_enviar]
    · rfl

theorem unres_leer_go (env : Env) (op : List Char) :
    ∀ (ms : List (List Char)) (st : St),
      ((leer_sms_go env op ms st).2).unresolved = st.unresolved := by
  intro ms
  induction ms with
  | nil => intro st; rfl
  | cons m rest ih =>
    intro st
    simp only [leer_sms_go]
    split
    · split
      · simp [unres_enviar]
      · split
        · simp [unres_enviar]
        · rw [ih]; simp [unres_enviar]
    · rw [ih]; simp [unres_enviar]

theorem unres_leer (env : Env) (st : St) (puerto iccid : List Char) :
    ((leer_sms env st puerto iccid).2).unresolved = st.unresolved := by
  simp only [leer_sms]
  rw [unres_leer_go]
  simp [unres_enviar]

theorem unres_gsim (env : Env) (st : St) (puerto numero : List Char) :
    ((guardar_numero_en_sim env st puerto numero).2).unresolved = st.unresolved := by
  simp only [guardar_numero_en_sim]
  simp [unres_enviar]

theorem unres_borrar (env : Env) (st : St) (indice : List Char) :
    (borrar_mensaje env st indice).unresolved = st.unresolved := by
  simp only [borrar_mensaje]
  rw [unres_enviar]

theorem unres_pduBloques (env : Env) (puerto : List Char) :
    ∀ (bs : List (List Char)) (st : St) (stats : Stats),
      ((pduBloques env puerto bs st stats).2.1).unresolved = st.unresolved := by
  intro bs
  induction bs with
  | nil => intro st stats; rfl
  | cons b rest ih =>
    intro st stats
    simp only [pduBloques]
    split
    · split
      · split
        · split
          · split
            · rw [unres_borrar, unres_gsim]
            · rw [unres_gsim]
          · exact ih st _
        · exact ih st _
      · exact ih st _
    · exact ih st _

theorem unres_pdu_go (env : Env) (puerto : List Char) :
    ∀ (ms : List (List Char)) (st : St) (stats : Stats),
      ((leer_sms_modo_pdu_go env puerto ms st stats).2.1).unresolved = st.unresolved := by
  intro ms
  induction ms with
  | nil => intro st stats; rfl
  | cons m rest ih =>
    intro st stats
    simp only [leer_sms_modo_pdu_go]
    split
    · split
      · next heq =>
        have h1 := unres_pduBloques env puerto
            ((pySplitOn litCMGLTag (pyStrip (enviarComando env
              (enviarComando env st (cpmsTripleCmd m) 1).2 cmdCMGL4 1).1)).drop 1)
            (enviarComando env (enviarComando env st (cpmsTripleCmd m) 1).2 cmdCMGL4 1).2 stats
        rw [heq] at h1
        simpa [unres_enviar] using h1
      · next heq =>
        have h1 := unres_pduBloques env puerto
            ((pySplitOn litCMGLTag (pyStrip (enviarComando env
              (enviarComando env st (cpmsTripleCmd m) 1).2 cmdCMGL4 1).1)).drop 1)
            (enviarComando env (enviarComando env st (cpmsTripleCmd m) 1).2 cmdCMGL4 1).2 stats
        rw [heq] at h1
        rw [ih]
        simpa [unres_enviar] using h1
    · rw [ih]; simp [unres_enviar]

theorem unres_pdu (env : Env) (puerto : List Char) (st : St) (stats : Stats) :
    ((leer_sms_modo_pdu env puerto st stats).2.1).unresolved = st.unresolved := by
  simp only [leer_sms_modo_pdu]
  rw [unres_pdu_go]
  simp [unres_enviar]

theorem unres_guardar (env : Env) (st : St) (iccid numero puerto : List Char) :
    (guardar_resultado env st iccid numero puerto).unresolved = st.unresolved := by
  simp only [guardar_resultado]
  simp [unres_enviar]

theorem isDel_cmgf1 : isDel (Action.cmd cmdCMGF1) = false := by decide

theorem isDel_cmgf0 : isDel (Action.cmd cmdCMGF0) = false := by decide

theorem isDel_cmglall : isDel (Action.cmd cmdCMGLAll) = false := by decide

theorem isDel_cmgl4 : isDel (Action.cmd cmdCMGL4) = false := by decide

theorem isDel_cpbs : isDel (Action.cmd cmdCPBS) = false := by decide

theorem gsim_fst (env : Env) (st : St) (puerto numero : List Char) :
    (guardar_numero_en_sim env st puerto numero).1 = true := rfl

theorem del_leer_go (env : Env) (op : List Char) :
    ∀ (ms : List (List Char)) (st : St),
      countA isDel ((leer_sms_go env op ms st).2).hist = countA isDel st.hist := by
  intro ms
  induction ms with
  | nil => intro st; rfl
  | cons m rest ih =>
    intro st
    simp only [leer_sms_go]
    split
    · split
      · simp [countA_enviar isDel isDel_sleep, isDel_cpms, isDel_cmglall]
      · split
        · simp [countA_enviar isDel isDel_sleep, isDel_cpms, isDel_cmglall]
        · rw [ih]; simp [countA_enviar isDel isDel_sleep, isDel_cpms, isDel_cmglall]
    · rw [ih]; simp [countA_enviar isDel isDel_sleep, isDel_cpms, isDel_cmglall]

theorem del_leer (env : Env) (st : St) (puerto iccid : List Char) :
    countA isDel ((leer_sms env st puerto iccid).2).hist = countA isDel st.hist := by
  simp only [leer_sms]
  rw [del_leer_go]
  simp [countA_enviar isDel isDel_sleep, isDel_cmgf1]

theorem del_gsim (env : Env) (st : St) (puerto numero : List Char) :
    countA isDel ((guardar_numero_en_sim env st puerto numero).2).hist =
      countA isDel st.hist := by
  simp only [guardar_numero_en_sim]
  simp [countA_enviar isDel isDel_sleep, isDel_cpbs, isDel_cpbw]

theorem del_borrar (env : Env) (st : St) (indice : List Char) :
    countA isDel (borrar_mensaje env st indice).hist = countA isDel st.hist + 1 := by
  simp only [borrar_mensaje]
  simp [countA_enviar isDel isDel_sleep, isDel_cmgd]

theorem del_pduBloques (env : Env) (puerto : List Char) :
    ∀ (bs : List (List Char)) (st : St) (stats : Stats),
      countA isDel ((pduBloques env puerto bs st stats).2.1).hist =
        countA isDel st.hist + delOf (pduBloques env puerto bs st stats).1 := by
  intro bs
  induction bs with
  | nil => intro st stats; simp [pduBloques, delOf]
  | cons b rest ih =>
    intro st stats
    simp only [pduBloques]
    split
    · split
      · split
        · split
          · simp only [gsim_fst, if_true, delOf]
            rw [del_borrar, del_gsim]
          · exact ih st _
        · exact ih st _
      · exact ih st _
    · exact ih st _

theorem del_pdu_go (env : Env) (puerto : List Char) :
    ∀ (ms : List (List Char)) (st : St) (stats : Stats),
      countA isDel ((leer_sms_modo_pdu_go env puerto ms st stats).2.1).hist =
        countA isDel st.hist + delOf (leer_sms_modo_pdu_go env puerto ms st stats).1 := by
  intro ms
  induction ms with
  | nil => intro st stats; simp [leer_sms_modo_pdu_go, delOf]
  | cons m rest ih =>
    intro st stats
    simp only [leer_sms_modo_pdu_go]
    split
    · split
      · next n st2 stats2 heq =>
        have h1 := del_pduBloques env puerto
            ((pySplitOn litCMGLTag (pyStrip (enviarComando env
              (enviarComando env st (cpmsTripleCmd m) 1).2 cmdCMGL4 1).1)).drop 1)
            (enviarComando env (enviarComando env st (cpmsTripleCmd m) 1).2 cmdCMGL4 1).2 stats
        rw [heq] at h1
        simp only [delOf] at h1 ⊢
        rw [h1]
        simp [countA_enviar isDel isDel_sleep, isDel_cpmsTriple, isDel_cmgl4]
      · next st2 stats2 heq =>
        have h1 := del_pduBloques env puerto
            ((pySplitOn litCMGLTag (pyStrip (enviarComando env
              (enviarComando env st (cpmsTripleCmd m) 1).2 cmdCMGL4 1).1)).drop 1)
            (enviarComando env (enviarComando env st (cpmsTripleCmd m) 1).2 cmdCMGL4 1).2 stats
        rw [heq] at h1
        simp only [delOf] at h1
        rw [ih, h1]
        simp [countA_enviar isDel isDel_sleep, isDel_cpmsTriple, isDel_cmgl4]
    · rw [ih]
      simp [countA_enviar isDel isDel_sleep, isDel_cpmsTriple, isDel_cmgl4]

theorem del_pdu (env : Env) (puerto : List Char) (st : St) (stats : Stats) :
    countA isDel ((leer_sms_modo_pdu env puerto st stats).2.1).hist =
      countA isDel st.hist + delOf (leer_sms_modo_pdu env puerto st stats).1 := by
  simp only [leer_sms_modo_pdu]
  rw [del_pdu_go]
  simp [countA_enviar isDel isDel_sleep, isDel_cmgf0]

theorem unres_ciclo (env : Env) (puerto iccid : List Char) (st : St) :
    ((ciclo env puerto iccid st).2).unresolved = st.unresolved := by
  simp only [ciclo]
  split
  · next g heq =>
    show ((leer_sms env (activar_chip env st puerto iccid) puerto iccid).2).unresolved = st.unresolved
    rw [unres_leer, unres_activar]
  · next heq =>
    show ((leer_sms_modo_pdu env puerto
        (leer_sms env (activar_chip env st puerto iccid) puerto iccid).2
        { leidos := 0, procesados := 0, ignorados := 0 }).2.1).unresolved = st.unresolved
    rw [unres_pdu, unres_leer, unres_activar]

-- ============================
-- Chip-identity query lemmas (attempt bound, spacing, abandonment)
-- ============================

theorem isQccid_sleep (w : Nat) : isQccid (Action.sleep w) = false := rfl

theorem isQccid_qccid : isQccid (Action.cmd cmdQCCID) = true := by decide

theorem isCusd_sleep (w : Nat) : isCusd (Action.sleep w) = false := rfl

theorem isCusd_qccid : isCusd (Action.cmd cmdQCCID) = false := by decide

theorem obtgo_unres (env : Env) :
    ∀ (n : Nat) (st : St), ((obtener_iccid_go env n st).2).unresolved = st.unresolved := by
  intro n
  induction n with
  | zero => intro st; rfl
  | succ m ih =>
    intro st
    simp only [obtener_iccid_go]
    split
    · rw [unres_enviar]
    · rw [ih]; simp [unres_enviar]

theorem obtgo_fail_trace (env : Env) :
    ∀ (n : Nat) (st : St), (obtener_iccid_go env n st).1 = none →
      ((obtener_iccid_go env n st).2).hist = st.hist ++ blockRep n := by
  intro n
  induction n with
  | zero => intro st _; simp [obtener_iccid_go, blockRep]
  | succ m ih =>
    intro st h
    simp only [obtener_iccid_go] at h ⊢
    split
    · next heq => rw [heq] at h; simp at h
    · next heq =>
      rw [heq] at h
      rw [ih _ h, enviar_snd]
      simp [blockRep, attemptBlock, List.append_assoc]

theorem obtgo_qccid_le (env : Env) :
    ∀ (n : Nat) (st : St),
      countA isQccid ((obtener_iccid_go env n st).2).hist ≤
        countA isQccid st.hist + n := by
  intro n
  induction n with
  | zero => intro st; simp [obtener_iccid_go]
  | succ m ih =>
    intro st
    simp only [obtener_iccid_go]
    split
    · simp [countA_enviar isQccid isQccid_sleep, isQccid_qccid]
    · calc countA isQccid ((obtener_iccid_go env m _).2).hist
          ≤ countA isQccid ((enviarComando env st cmdQCCID 1).2.hist ++ [Action.sleep 5]) + m := ih _
        _ ≤ countA isQccid st.hist + (m + 1) := by
            rw [countA_append, countA_enviar isQccid isQccid_sleep, isQccid_qccid]
            simp [countA, isQccid_sleep]
            omega

-- ============================
-- Unresolved-set membership lemmas for the activation loop
-- ============================

theorem mem_insertPort_self (p : List Char) (l : List (List Char)) :
    p ∈ insertPort p l := by
  simp only [insertPort]
  split
  · assumption
  · simp

theorem mem_insertPort_of_mem (x p : List Char) (l : List (List Char)) (h : x ∈ l) :
    x ∈ insertPort p l := by
  simp only [insertPort]
  split
  · exact h
  · exact List.mem_append_left _ h

theorem mem_loop_of_mem (env : Env) (puerto iccid operador : List Char) :
    ∀ (n : Nat) (st : St) (x : List Char), x ∈ st.unresolved →
      x ∈ (procesar_puerto_loop env puerto iccid operador n st).unresolved := by
  intro n
  induction n with
  | zero => intro st x h; exact h
  | succ m ih =>
    intro st x h
    simp only [procesar_puerto_loop]
    split
    · next nn st1 heq =>
      have hu : st1.unresolved = st.unresolved := by
        have := unres_ciclo env puerto iccid st
        rw [heq] at this
        exact this
      split
      · show x ∈ (guardar_resultado env st1 iccid nn puerto).unresolved
        rw [unres_guardar, hu]
        exact h
      · rw [unres_guardar, hu]
        exact h
    · next st1 heq =>
      apply ih
      have hu : st1.unresolved = st.unresolved := by
        have := unres_ciclo env puerto iccid st
        rw [heq] at this
        exact this
      show x ∈ insertPort puerto st1.unresolved
      rw [hu]
      exact mem_insertPort_of_mem x puerto _ h

-- ============================
-- Shape of the numbers produced by the extractors
-- ============================

theorem reSearchAux_prop {P : List Char → Prop}
    (tryAt : Option Char → List Char → Option (List Char))
    (h : ∀ prev s g, tryAt prev s = some g → P g) :
    ∀ (s : List Char) (prev : Option Char) (g : List Char),
      reSearchAux tryAt prev s = some g → P g := by
  intro s
  induction s with
  | nil => intro prev g hg; exact h _ _ _ hg
  | cons c rest ih =>
    intro prev g hg
    simp only [reSearchAux] at hg
    cases hA : tryAt prev (c :: rest) with
    | some g2 =>
      rw [hA] at hg
      simp at hg
      rw [← hg]
      exact h _ _ _ hA
    | none =>
      rw [hA] at hg
      exact ih _ _ hg

theorem reSearch_prop {P : List Char → Prop}
    (tryAt : Option Char → List Char → Option (List Char))
    (h : ∀ prev s g, tryAt prev s = some g → P g)
    (s : List Char) (g : List Char) (hg : reSearch tryAt s = some g) : P g :=
  reSearchAux_prop tryAt h s none g hg

theorem takeExactDigits_spec :
    ∀ (n : Nat) (s ds r : List Char), takeExactDigits n s = some (ds, r) →
      ds.length = n ∧ ds.all pyIsDigit = true := by
  intro n
  induction n with
  | zero =>
    intro s ds r h
    simp [takeExactDigits] at h
    rw [h.1]
    simp
  | succ m ih =>
    intro s ds r h
    cases s with
    | nil => simp [takeExactDigits] at h
    | cons c cs =>
      simp only [takeExactDigits] at h
      by_cases hd : pyIsDigit c
      · rw [if_pos hd] at h
        cases hrec : takeExactDigits m cs with
        | none => rw [hrec] at h; simp at h
        | some pr =>
          rw [hrec] at h
          simp at h
          obtain ⟨h1, h2⟩ := h
          obtain ⟨hlen, hall⟩ := ih cs pr.1 pr.2 (by rw [hrec])
          rw [← h1]
          simp [List.all_cons, hd, hall, hlen]
      · rw [if_neg hd] at h
        simp at h

theorem kern9x8_spec (t g : List Char) (h : kern9x8 t = some g) :
    g.length = 8 ∧ g.all pyIsDigit = true := by
  simp only [kern9x8] at h
  split at h
  · next r =>
    split at h
    · next ds rest heq =>
      split at h
      · simp at h
      · simp at h
        rw [← h]
        exact takeExactDigits_spec 8 r ds rest heq
    · simp at h
  · simp at h

theorem pduPrefA_spec (s g : List Char) (h : pduPrefA s = some g) :
    g.length = 8 ∧ g.all pyIsDigit = true := by
  simp only [pduPrefA] at h
  split at h
  · next r => exact kern9x8_spec r g h
  · simp at h

theorem pduPrefB_spec (s g : List Char) (h : pduPrefB s = some g) :
    g.length = 8 ∧ g.all pyIsDigit = true := by
  simp only [pduPrefB] at h
  split at h
  · next r => exact kern9x8_spec r g h
  · simp at h

theorem tryPdu1_spec :
    ∀ (prev : Option Char) (s g : List Char), tryPdu1 prev s = some g →
      g.length = 8 ∧ g.all pyIsDigit = true := by
  intro prev s g h
  simp only [tryPdu1] at h
  split at h
  · split at h
    · next g2 heq =>
      simp at h
      rw [← h]
      exact pduPrefA_spec s g2 heq
    · split at h
      · next g2 heq =>
        simp at h
        rw [← h]
        exact pduPrefB_spec s g2 heq
      · exact kern9x8_spec s g h
  · simp at h

theorem tryPdu2_spec :
    ∀ (prev : Option Char) (s g : List Char), tryPdu2 prev s = some g →
      g.length = 9 ∧ g.all pyIsDigit = true := by
  intro prev s g h
  simp only [tryPdu2] at h
  split at h
  · simp at h
  · next t heq =>
    cases hrec : takeExactDigits 9 (t.dropWhile pyIsSpace) with
    | none => rw [hrec] at h; simp at h
    | some pr =>
      rw [hrec] at h
      simp at h
      rw [← h]
      exact takeExactDigits_spec 9 _ pr.1 pr.2 (by rw [hrec])

theorem length_last8_le (l : List Char) : (last8 l).length ≤ 8 := by
  simp [last8, List.length_drop]
  omega

theorem length_last8_of_ge (l : List Char) (h : 8 ≤ l.length) :
    (last8 l).length = 8 := by
  simp [last8, List.length_drop]
  omega

theorem all_last8 (p : Char → Bool) (l : List Char) (h : l.all p = true) :
    (last8 l).all p = true := by
  simp only [last8]
  exact all_drop p l _ h

theorem mkNumLast8_spec (g : List Char) (hlen : 8 ≤ g.length)
    (hd : g.all pyIsDigit = true) :
    (mkNumLast8 g).length = 11 ∧ lit569.isPrefixOf (mkNumLast8 g) = true ∧
      (mkNumLast8 g).all pyIsDigit = true := by
  refine ⟨?_, isPrefixOf_append_self _ _, ?_⟩
  · have h3 : lit569.length = 3 := rfl
    simp [mkNumLast8, List.length_append, h3, length_last8_of_ge g hlen]
  · have h569 : lit569.all pyIsDigit = true := by decide
    simp [mkNumLast8, List.all_append, h569, all_last8 pyIsDigit g hd]

theorem extraer_shape (t n : List Char)
    (h : extraer_numero_desde_contenido t = some n) :
    n.length = 11 ∧ lit569.isPrefixOf n = true ∧ n.all pyIsDigit = true := by
  simp only [extraer_numero_desde_contenido] at h
  cases h1 : reSearch tryPdu1 t with
  | some g =>
    rw [h1] at h
    simp at h
    obtain ⟨hg8, hgd⟩ := reSearch_prop tryPdu1 tryPdu1_spec t g h1
    rw [← h]
    exact mkNumLast8_spec g (by omega) hgd
  | none =>
    rw [h1] at h
    cases h2 : reSearch tryPdu2 t with
    | some g =>
      rw [h2] at h
      simp at h
      obtain ⟨hg9, hgd⟩ := reSearch_prop tryPdu2 tryPdu2_spec t g h2
      rw [← h]
      exact mkNumLast8_spec g (by omega) hgd
    | none => rw [h2] at h; simp at h

theorem mkNumStrip_shape (g : List Char) :
    lit569.isPrefixOf (mkNumStrip g) = true ∧ (mkNumStrip g).length ≤ 11 := by
  refine ⟨isPrefixOf_append_self _ _, ?_⟩
  have h3 : lit569.length = 3 := rfl
  have := length_last8_le (stripSpaces g)
  simp [mkNumStrip, List.length_append, h3]
  omega

theorem mkNumLast8_shape (g : List Char) :
    lit569.isPrefixOf (mkNumLast8 g) = true ∧ (mkNumLast8 g).length ≤ 11 := by
  refine ⟨isPrefixOf_append_self _ _, ?_⟩
  have h3 : lit569.length = 3 := rfl
  have := length_last8_le g
  simp [mkNumLast8, List.length_append, h3]
  omega

theorem buscar_shape (s n : List Char) (h : buscarNumeroEnRespuesta s = some n) :
    lit569.isPrefixOf n = true ∧ n.length ≤ 11 := by
  simp only [buscarNumeroEnRespuesta] at h
  split at h
  · simp at h
    rw [← h]
    exact mkNumStrip_shape _
  · simp at h

theorem url_shape (s n : List Char) (h : buscarNumeroURL s = some n) :
    lit569.isPrefixOf n = true ∧ n.length ≤ 11 := by
  simp only [buscarNumeroURL] at h
  split at h
  · simp at h
    rw [← h]
    exact mkNumLast8_shape _
  · simp at h

theorem leer_go_shape (env : Env) (op : List Char) :
    ∀ (ms : List (List Char)) (st : St) (n : List Char),
      (leer_sms_go env op ms st).1 = some n →
      lit569.isPrefixOf n = true ∧ n.length ≤ 11 := by
  intro ms
  induction ms with
  | nil => intro st n h; simp [leer_sms_go] at h
  | cons m rest ih =>
    intro st n h
    simp only [leer_sms_go] at h
    split at h
    · split at h
      · next heq =>
        simp at h
        rw [← h]
        exact buscar_shape _ _ heq
      · split at h
        · next heq =>
          simp at h
          rw [← h]
          exact url_shape _ _ heq
        · exact ih _ n h
    · exact ih _ n h

theorem leer_shape (env : Env) (st : St) (puerto iccid n : List Char)
    (h : (leer_sms env st puerto iccid).1 = some n) :
    lit569.isPrefixOf n = true ∧ n.length ≤ 11 := by
  simp only [leer_sms] at h
  exact leer_go_shape env _ COMANDOS_MEMORIAS _ n h

-- ============================
-- Operator gating of the text-mode extractor
-- ============================

theorem leer_go_nonclaro (env : Env) (op : List Char) (hop : op ≠ opClaro) :
    ∀ (ms : List (List Char)) (st : St), (leer_sms_go env op ms st).1 = none := by
  intro ms
  induction ms with
  | nil => intro st; rfl
  | cons m rest ih =>
    intro st
    simp only [leer_sms_go]
    rw [if_neg hop]
    exact ih _

-- ============================
-- One-step unfolding of the activation loop
-- ============================

theorem loop_succ_some (env : Env) (puerto iccid operador : List Char)
    (n : Nat) (st : St) (nn : List Char) (st1 : St)
    (hc : ciclo env puerto iccid st = (some nn, st1)) :
    (procesar_puerto_loop env puerto iccid operador (n + 1) st).unresolved =
      st.unresolved := by
  have hu : st1.unresolved = st.unresolved := by
    have h0 := unres_ciclo env puerto iccid st
    rw [hc] at h0
    exact h0
  simp only [procesar_puerto_loop]
  split
  · next nn2 st2 heq =>
    rw [hc] at heq
    simp at heq
    obtain ⟨h1, h2⟩ := heq
    split
    · show (guardar_resultado env st2 iccid nn2 puerto).unresolved = st.unresolved
      rw [unres_guardar, ← h2, hu]
    · rw [unres_guardar, ← h2, hu]
  · next st2 heq =>
    rw [hc] at heq
    simp at heq

theorem loop_succ_none (env : Env) (puerto iccid operador : List Char)
    (n : Nat) (st : St) (st1 : St)
    (hc : ciclo env puerto iccid st = (none, st1)) :
    procesar_puerto_loop env puerto iccid operador (n + 1) st =
      procesar_puerto_loop env puerto iccid operador n
        { st1 with unresolved := insertPort puerto st1.unresolved,
                   hist := st1.hist ++ [Action.sleep 10] } := by
  simp only [procesar_puerto_loop]
  split
  · next nn2 st2 heq =>
    rw [hc] at heq
    simp at heq
  · next st2 heq =>
    rw [hc] at heq
    simp at heq
    rw [heq]

-- ============================
-- Claim theorems
-- ============================

/-- C1 (counterexample): on a device that yields no number during the first
activation cycle and delivers one in the second, `procesar_puerto` persists
the number after exactly two activation requests (so cycle 3 is not run), yet
the port still sits in the process-wide unresolved set at the end of the run —
contradicting the claim that a port is recorded there only upon Exhausted. -/
theorem C1_counterexample :
    (procesar_puerto envC1 puertoCOM1 St0).unresolved = [puertoCOM1] ∧
    (procesar_puerto envC1 puertoCOM1 St0).guardados =
      [(iccidClaro, num56912345678, puertoCOM1)] ∧
    countA isCusd (procesar_puerto envC1 puertoCOM1 St0).hist = 2 :=
  ⟨by decide, by decide, by decide⟩

/-- C1 (amended): the activation loop records the port in the unresolved set
at the end of every cycle that yields no number (and never removes it), so
after the three-cycle run the port is in the set exactly when it was already
there or the first cycle yielded no number; in particular a port that fails
cycle 1 and succeeds on cycle 2 is not retried on cycle 3 but does appear in
the unresolved set. -/
theorem C1_amended :
    ∀ (env : Env) (puerto iccid operador : List Char) (st : St),
      puerto ∈ (procesar_puerto_loop env puerto iccid operador 3 st).unresolved ↔
        puerto ∈ st.unresolved ∨ (ciclo env puerto iccid st).1 = none := by
  intro env puerto iccid operador st
  rcases hc : ciclo env puerto iccid st with ⟨r, st1⟩
  cases r with
  | some nn =>
    have h3 := loop_succ_some env puerto iccid operador 2 st nn st1 hc
    have he : (2 : Nat) + 1 = 3 := rfl
    rw [he] at h3
    rw [h3]
    simp
  | none =>
    have h3 := loop_succ_none env puerto iccid operador 2 st st1 hc
    have he : (2 : Nat) + 1 = 3 := rfl
    rw [he] at h3
    have hmem : puerto ∈ (procesar_puerto_loop env puerto iccid operador 3 st).unresolved := by
      rw [h3]
      apply mem_loop_of_mem
      show puerto ∈ insertPort puerto st1.unresolved
      exact mem_insertPort_self _ _
    simp [hmem]

/-- C2 (counterexample): scanning the text-mode listing `Tu numero es 5`
produces the number `5695`, which is four characters long — refuting the
claim that every produced number is exactly eleven digits. -/
theorem C2_counterexample :
    (leer_sms envC2 St0 puertoCOM1 iccidClaro).1 = some num5695 ∧
    num5695.length ≠ 11 :=
  ⟨by decide, by decide⟩

/-- C2 (amended): every number produced by the PDU-mode extractor is exactly
eleven digits beginning with `569`; a number produced by the text-mode
extractor always begins with `569` and is at most eleven characters long, but
can be shorter when the matched group has fewer than eight non-space
characters. -/
theorem C2_amended :
    (∀ (t n : List Char), extraer_numero_desde_contenido t = some n →
        n.length = 11 ∧ lit569.isPrefixOf n = true ∧ n.all pyIsDigit = true) ∧
    (∀ (env : Env) (st : St) (puerto iccid n : List Char),
        (leer_sms env st puerto iccid).1 = some n →
        lit569.isPrefixOf n = true ∧ n.length ≤ 11) :=
  ⟨extraer_shape, leer_shape⟩

/-- C2 (witness): the amended claim applied to the concrete PDU content of
the spec's test property and to a concrete text-mode run. -/
theorem C2_witness :
    num56987654321.length = 11 ∧ lit569.isPrefixOf num56987654321 = true ∧
      num56987654321.all pyIsDigit = true :=
  C2_amended.1 contentLineaMovil num56987654321 (by decide)

/-- C3 (counterexample): a text-mode run that successfully extracts a number
issues no delete command at all, refuting the claim that on successful
extraction the message is deleted from the device store in the text-mode
path. -/
theorem C3_counterexample :
    (leer_sms envC3 St0 puertoCOM1 iccidClaro).1 = some num56912345678 ∧
    countA isDel ((leer_sms envC3 St0 puertoCOM1 iccidClaro).2).hist = 0 :=
  ⟨by decide, by decide⟩

/-- C3 (amended): the text-mode extractor never deletes a message, even on
success; the PDU-mode extractor deletes exactly one message when it returns a
number and none otherwise — so messages are left in place whenever no number
is extracted, but only the PDU path deletes on success. -/
theorem C3_amended :
    (∀ (env : Env) (st : St) (puerto iccid : List Char),
        countA isDel ((leer_sms env st puerto iccid).2).hist =
          countA isDel st.hist) ∧
    (∀ (env : Env) (puerto : List Char) (st : St) (stats : Stats),
        countA isDel ((leer_sms_modo_pdu env puerto st stats).2.1).hist =
          countA isDel st.hist + delOf (leer_sms_modo_pdu env puerto st stats).1) :=
  ⟨del_leer, del_pdu⟩

/-- C4 (counterexample): on content holding both a bare nine-digit run and a
`+569`-prefixed number, the source's pattern order (bare nine-digit second)
yields `56923456789`, while the spec's stated order (`+569` forms before bare
nine-digit forms) would yield `56911112222` — the orders are observably
different. -/
theorem C4_counterexample :
    buscarNumeroEnRespuesta inputC4 = some num56923456789 ∧
    buscarNumero_ordenSpec inputC4 = some num56911112222 ∧
    num56923456789 ≠ num56911112222 :=
  ⟨by decide, by decide, by decide⟩

/-- C4 (amended): the text-mode pattern order is: explicit `Tu numero es`
phrase, then bare nine-digit runs, then the `+569`/`569`-prefixed forms, then
a looser explicit-phrase form, then the carrier-portal URL; the first pattern
that matches determines the result.  The explicit phrase still wins over a
bare nine-digit run, as in the spec's concrete test. -/
theorem C4_amended :
    (∀ (s g : List Char), reSearch tryTuNumeroEs s = some g →
        buscarNumeroEnRespuesta s = some (mkNumStrip g)) ∧
    (∀ (s g : List Char), reSearch tryTuNumeroEs s = none →
        reSearch tryBare9 s = some g →
        buscarNumeroEnRespuesta s = some (mkNumStrip g)) ∧
    buscarNumeroEnRespuesta inputC4spec = some num56912345678 := by
  refine ⟨?_, ?_, by decide⟩
  · intro s g h
    simp [buscarNumeroEnRespuesta, patrones_numeros, firstSome, h]
  · intro s g h1 h2
    simp [buscarNumeroEnRespuesta, patrones_numeros, firstSome, h1, h2]

/-- C4 (witness): the amended priority statement applied to the concrete
listing `Tu numero es 912345678`. -/
theorem C4_witness :
    buscarNumeroEnRespuesta respTuNumeroEs9 = some (mkNumStrip grupo912) :=
  C4_amended.1 respTuNumeroEs9 grupo912 (by decide)

/-- C5: the command transport returns the empty string whenever the I/O of
the selected branch (session-bound or ephemeral) raises; being a total
function, it never propagates an exception to its caller. -/
theorem C5_transport_swallows_errors :
    ∀ (env : Env) (st : St) (comando : List Char) (espera : Nat),
      ((env.hasSession = true ∧ env.respond st.hist comando = none) ∨
       (env.hasSession = false ∧ env.respondEphem st.hist comando = none)) →
      (enviarComando env st comando espera).1 = [] := by
  intro env st comando espera h
  rcases h with ⟨h1, h2⟩ | ⟨h1, h2⟩
  · simp [enviarComando, h1, h2]
  · simp [enviarComando, h1, h2]

/-- C5 (witness): a transport whose session I/O always raises returns the
empty string for a concrete command. -/
theorem C5_witness : (enviarComando envErr St0 cmdQCCID 1).1 = [] :=
  C5_transport_swallows_errors envErr St0 cmdQCCID 1 (Or.inl ⟨rfl, rfl⟩)

theorem msExit_spec (puerto : List Char) (h : Nat) (closeOk : Bool) (s : MState) :
    ((msExit puerto h closeOk s).1).sessions puerto = none ∧
    ((msExit puerto h closeOk s).1).lockHeld puerto = false ∧
    (tryAcquire puerto ((msExit puerto h closeOk s).1)).isSome = true ∧
    ((msExit puerto h closeOk s).2 =
        [ExitStep.closeHandle, ExitStep.popSession, ExitStep.releaseLock] ∨
      (msExit puerto h closeOk s).2 = [ExitStep.popSession, ExitStep.releaseLock]) := by
  refine ⟨?_, ?_, ?_, ?_⟩
  · simp [msExit]
  · simp [msExit]
  · simp [tryAcquire, msExit]
  · simp only [msExit]
    split
    · left; rfl
    · right; rfl

/-- C6: whatever the body of a `with ModemSession` block does — complete
normally or raise — once entry succeeded, the scope exit closes the handle if
open, removes the port's open-session entry, and releases the lock, in that
order; afterwards the port is unregistered and a non-blocking lock attempt
succeeds immediately. -/
theorem C6_session_exit_cleanup :
    ∀ (puerto : List Char) (h : Nat) (closeOk : Bool)
      (body : MState → BodyOutcome × MState) (s : MState),
      ((withModemSession puerto (some h) closeOk body s).2.1).sessions puerto = none ∧
      ((withModemSession puerto (some h) closeOk body s).2.1).lockHeld puerto = false ∧
      (tryAcquire puerto ((withModemSession puerto (some h) closeOk body s).2.1)).isSome
          = true ∧
      ((withModemSession puerto (some h) closeOk body s).2.2 =
          [ExitStep.closeHandle, ExitStep.popSession, ExitStep.releaseLock] ∨
        (withModemSession puerto (some h) closeOk body s).2.2 =
          [ExitStep.popSession, ExitStep.releaseLock]) := by
  intro puerto h closeOk body s
  simp only [withModemSession, msEnter]
  split
  · next s2 heq => exact msExit_spec puerto h closeOk s2
  · next s2 heq => exact msExit_spec puerto h closeOk s2

/-- C7: the PDU-mode extractor issues exactly one delete command on any run
that returns a number; in the concrete two-message scenario of the spec's test
property, the first decoded content without a number is skipped, the second
(`Tu nueva linea movil es +56987654321`) yields `56987654321`, the delete is
issued exactly once and for that message's index (2), and the scan stops after
the first memory zone (a single store-selection command). -/
theorem C7_pdu_first_match_single_delete :
    (∀ (env : Env) (puerto : List Char) (st : St) (stats : Stats) (n : List Char),
        (leer_sms_modo_pdu env puerto st stats).1 = some n →
        countA isDel ((leer_sms_modo_pdu env puerto st stats).2.1).hist =
          countA isDel st.hist + 1) ∧
    (leer_sms_modo_pdu envC7 puertoCOM1 St0 stats0).1 = some num56987654321 ∧
    countA isDel ((leer_sms_modo_pdu envC7 puertoCOM1 St0 stats0).2.1).hist = 1 ∧
    Action.cmd (cmgdCmd indice2) ∈
      ((leer_sms_modo_pdu envC7 puertoCOM1 St0 stats0).2.1).hist ∧
    countA isCpms ((leer_sms_modo_pdu envC7 puertoCOM1 St0 stats0).2.1).hist = 1 := by
  refine ⟨?_, by decide, by decide, by decide, by decide⟩
  intro env puerto st stats n h
  have hd := del_pdu env puerto st stats
  rw [h] at hd
  simpa [delOf] using hd

/-- C7 (witness): the single-delete property applied to the concrete
scenario. -/
theorem C7_witness :
    countA isDel ((leer_sms_modo_pdu envC7 puertoCOM1 St0 stats0).2.1).hist =
      countA isDel St0.hist + 1 :=
  C7_pdu_first_match_single_delete.1 envC7 puertoCOM1 St0 stats0 num56987654321
    (by decide)

/-- C8: when the chip identity never arrives, `obtener_iccid` makes exactly
five query attempts, each followed by the one-second settle wait and the
five-second retry spacing, and `procesar_puerto` then stops at once: its final
state is exactly the post-query state, the unresolved set is untouched, and no
activation request was ever sent; moreover the identity query never sends more
than five attempts on any device. -/
theorem C8_iccid_abandon :
    (∀ (env : Env) (st : St) (puerto : List Char),
        (obtener_iccid env st).1 = none →
        procesar_puerto env puerto st = (obtener_iccid env st).2 ∧
        ((obtener_iccid env st).2).unresolved = st.unresolved ∧
        ((obtener_iccid env st).2).hist = st.hist ++ blockRep 5 ∧
        countA isCusd ((obtener_iccid env st).2).hist = countA isCusd st.hist) ∧
    (∀ (env : Env) (st : St),
        countA isQccid ((obtener_iccid env st).2).hist ≤ countA isQccid st.hist + 5) := by
  constructor
  · intro env st puerto h
    have htr : ((obtener_iccid env st).2).hist = st.hist ++ blockRep 5 :=
      obtgo_fail_trace env 5 st h
    refine ⟨?_, obtgo_unres env 5 st, htr, ?_⟩
    · rcases hO : obtener_iccid env st with ⟨r, st1⟩
      rw [hO] at h
      simp at h
      rw [h] at hO
      simp only [procesar_puerto]
      rw [hO]
    · rw [htr, countA_append]
      have hb : countA isCusd (blockRep 5) = 0 := by decide
      omega
  · intro env st
    exact obtgo_qccid_le env 5 st

/-- C8 (witness): the abandonment property applied to a device that answers
`OK` to everything. -/
theorem C8_witness :
    procesar_puerto envC8 puertoCOM1 St0 = (obtener_iccid envC8 St0).2 ∧
    ((obtener_iccid envC8 St0).2).unresolved = St0.unresolved :=
  ⟨(C8_iccid_abandon.1 envC8 St0 puertoCOM1 (by decide)).1,
   (C8_iccid_abandon.1 envC8 St0 puertoCOM1 (by decide)).2.1⟩

/-- C9: if opening the serial device inside `ModemSession.__enter__` raises
(after the port lock has been acquired), the exception propagates, the port's
lock remains held, the open-session table is unchanged (the port was never
registered), and no `__exit__` step runs. -/
theorem C9_enter_failure_keeps_lock :
    ∀ (puerto : List Char) (closeOk : Bool)
      (body : MState → BodyOutcome × MState) (s : MState),
      (withModemSession puerto none closeOk body s).1 = false ∧
      ((withModemSession puerto none closeOk body s).2.1).lockHeld puerto = true ∧
      ((withModemSession puerto none closeOk body s).2.1).sessions = s.sessions ∧
      (withModemSession puerto none closeOk body s).2.2 = [] := by
  intro puerto closeOk body s
  refine ⟨rfl, ?_, rfl, rfl⟩
  simp [withModemSession, msEnter]

/-- C10: a chip whose ICCID does not start with `895603` is classified
`Desconocido`; for such a chip `activar_chip` is the identity on the device
state (no activation command) and the text-mode extractor never returns a
number, yet the PDU-mode extractor ignores the operator: in the concrete run
the non-Claro port resolves `56987654321` via the PDU path and persists it,
with zero activation requests sent and an empty unresolved set. -/
theorem C10_desconocido_resolves_via_pdu :
    (∀ (iccid : List Char), lit895603.isPrefixOf iccid = false →
        obtener_operador iccid = opDesconocido) ∧
    (∀ (env : Env) (st : St) (puerto iccid : List Char),
        obtener_operador iccid ≠ opClaro →
        (leer_sms env st puerto iccid).1 = none) ∧
    (∀ (env : Env) (st : St) (puerto iccid : List Char),
        obtener_operador iccid ≠ opClaro →
        activar_chip env st puerto iccid = st) ∧
    (procesar_puerto envC10 puertoCOM1 St0).guardados =
        [(iccidUnknown, num56987654321, puertoCOM1)] ∧
    countA isCusd (procesar_puerto envC10 puertoCOM1 St0).hist = 0 ∧
    (procesar_puerto envC10 puertoCOM1 St0).unresolved = [] := by
  refine ⟨?_, ?_, ?_, by decide, by decide, by decide⟩
  · intro iccid h
    simp [obtener_operador, h]
  · intro env st puerto iccid h
    simp only [leer_sms]
    exact leer_go_nonclaro env _ h COMANDOS_MEMORIAS _
  · intro env st puerto iccid h
    simp [activar_chip, h]

/-- C10 (witness): the operator gating applied to the concrete non-Claro
chip identity. -/
theorem C10_witness :
    obtener_operador iccidUnknown = opDesconocido ∧
    (leer_sms envC10 St0 puertoCOM1 iccidUnknown).1 = none ∧
    activar_chip envC10 St0 puertoCOM1 iccidUnknown = St0 :=
  ⟨C10_desconocido_resolves_via_pdu.1 iccidUnknown (by decide),
   C10_desconocido_resolves_via_pdu.2.1 envC10 St0 puertoCOM1 iccidUnknown (by decide),
   C10_desconocido_resolves_via_pdu.2.2.1 envC10 St0 puertoCOM1 iccidUnknown (by decide)⟩

end AC
